import Mathlib

/-
Verification of the MONv2 transaction engine (transaction.js, index.js
variants, 2ndindex.js) against its natural-language specification.

The JavaScript source is shallowly embedded: pure computations become Lean
functions, the mutable manager state becomes explicit state passing, and the
event-loop effects of one call become an explicit list of effect events in
program order.  JavaScript numbers that hold nonces, timestamps, block
numbers and delays are small non-negative integers in all reachable states,
so they are modelled as Nat.
-/

namespace MONv2

/-! ## Nonce allocator (transaction.js, TransactionManager.getNonce)

The manager keeps a map pendingNonces : address -> number.  For a single
address the relevant state is the optional map entry.  The source is

  const onChainNonce = await this.web3.eth.getTransactionCount(address);
  const pendingNonce = this.pendingNonces.get(address) || onChainNonce;
  const nonce = Math.max(onChainNonce, pendingNonce);
  this.pendingNonces.set(address, nonce + 1);
  return nonce;

Note the JavaScript disjunction: a stored entry of 0 would be falsy and fall
back to the on-chain count; the model keeps that quirk.  Everything after
the await runs atomically on the event loop, so a set of concurrent calls
for one address is a serialization of these atomic sections, each observing
the same on-chain count when no external transaction lands in between. -/

/-- Model of one getNonce call for a fixed address: given the on-chain
transaction count and the current pendingNonces entry, return the issued
nonce and the new entry value. -/
def getNonce (onChainNonce : Nat) (pendingEntry : Option Nat) : Nat × Nat :=
  let pendingNonce :=
    match pendingEntry with
    | none => onChainNonce
    | some v => if v = 0 then onChainNonce else v
  let nonce := max onChainNonce pendingNonce
  (nonce, nonce + 1)

/-- Operations of the program that touch the pendingNonces entry of one
address: an allocation (getNonce, with the on-chain count it observes), the
invalidation performed by sendTransaction on a nonce-related broadcast
error (pendingNonces.delete), and the release call attempted by the
2ndindex.js variant after a success.  getNonce returns a primitive number,
so nonceData.release there is undefined and the guarded call never runs:
the release operation is a no-op on the state. -/
inductive NonceOp
  | alloc (onChainNonce : Nat)
  | invalidate
  | releaseAfterSuccess
deriving DecidableEq, Repr

/-- Effect of one operation on the pendingNonces entry, together with the
nonce it issues, if any. -/
def nonceOpStep (pendingEntry : Option Nat) : NonceOp → Option Nat × Option Nat
  | NonceOp.alloc c =>
      let r := getNonce c pendingEntry
      (some r.2, some r.1)
  | NonceOp.invalidate => (none, none)
  | NonceOp.releaseAfterSuccess => (pendingEntry, none)

/-- Nonces issued for one address by a serialized sequence of operations,
starting from a given pendingNonces entry. -/
def issuedNonces (pendingEntry : Option Nat) : List NonceOp → List Nat
  | [] => []
  | op :: rest =>
      match nonceOpStep pendingEntry op with
      | (p2, some n) => n :: issuedNonces p2 rest
      | (p2, none) => issuedNonces p2 rest

/-! ## Submitter (transaction.js, TransactionManager.sendTransaction)

The record object, the options object and the manager state are embedded as
structures.  The audit fields gasPrice and gasLimit are recorded as strings
(the source stores whatever was passed, or the string unknown); a JavaScript
falsy check guards each default, so an empty string also falls back. -/

inductive TxStatus
  | pending
  | confirmed
  | failed
deriving DecidableEq, Repr

/-- Receipt returned by the RPC client on a successful broadcast. -/
structure Receipt where
  transactionHash : String
  blockNumber : Nat
  gasUsed : Nat
deriving DecidableEq, Repr

/-- One entry of txHistory.  The from and to fields of the source are named
fromAddr and toAddr because from and to are reserved words in Lean. -/
structure TxRecord where
  hash : String
  fromAddr : String
  toAddr : String
  timestamp : Nat
  status : TxStatus
  gasPrice : String
  gasLimit : String
  blockNumber : Option Nat
  gasUsed : Option Nat
  error : Option String
deriving DecidableEq, Repr

/-- Options object passed to sendTransaction. -/
structure TxOptions where
  toAddr : Option String
  gasPrice : Option String
  gasLimit : Option String
  timeout : Option Nat
deriving DecidableEq, Repr

/-- Per-manager mutable state: the pendingNonces map (association list) and
the bounded history with its cap (the constructor sets the cap to 100). -/
structure TxManagerState where
  pendingNonces : List (String × Nat)
  txHistory : List TxRecord
  maxHistoryItems : Nat
deriving DecidableEq, Repr

/-- JavaScript disjunction v or-else d for an optional string: undefined and
the empty string are falsy. -/
def jsOr (v : Option String) (d : String) : String :=
  match v with
  | none => d
  | some s => if s = "" then d else s

/-- JavaScript disjunction for an optional number: undefined and 0 are
falsy. -/
def jsOrNat (v : Option Nat) (d : Nat) : Nat :=
  match v with
  | none => d
  | some n => if n = 0 then d else n

/-- Whether the text starts with the pattern, on character lists. -/
def leadingMatch : List Char → List Char → Bool
  | [], _ => true
  | _ :: _, [] => false
  | p :: ps, c :: cs => p == c && leadingMatch ps cs

/-- Whether the pattern occurs somewhere in the text, on character lists. -/
def charsContain (pat : List Char) : List Char → Bool
  | [] => pat.isEmpty
  | c :: cs => leadingMatch pat (c :: cs) || charsContain pat cs

/-- Model of the JavaScript String.prototype.includes test. -/
def strIncludes (s pat : String) : Bool :=
  charsContain pat.data s.data

/-- Model of Map.prototype.delete on the association-list map. -/
def eraseKey (m : List (String × Nat)) (k : String) : List (String × Nat) :=
  m.filter (fun p => p.1 ≠ k)

/-- Source lines 57 to 60: unshift the record, then pop the last record if
the length now exceeds the cap. -/
def appendCapped (hist : List TxRecord) (r : TxRecord) (cap : Nat) : List TxRecord :=
  let h := r :: hist
  if cap < h.length then h.dropLast else h

/-- Mutation of the freshly appended record through its object reference:
the record sits at the head of the list (an unshift followed by at most one
pop of the last element keeps it there), so mutating it replaces the head.
When the list is empty the record was evicted and the history is untouched,
exactly as in the source. -/
def mutateHead (hist : List TxRecord) (r : TxRecord) : List TxRecord :=
  match hist with
  | [] => []
  | _ :: rest => r :: rest

/-- The pending record built at source lines 47 to 55. -/
def mkTxRecord (txHash walletAddress : String) (now : Nat) (options : TxOptions) : TxRecord :=
  { hash := txHash
    fromAddr := walletAddress
    toAddr := jsOr options.toAddr "unknown"
    timestamp := now
    status := TxStatus.pending
    gasPrice := jsOr options.gasPrice "unknown"
    gasLimit := jsOr options.gasLimit "unknown"
    blockNumber := none
    gasUsed := none
    error := none }

/-- The mutation of source lines 75 to 77. -/
def confirmRecord (r : TxRecord) (receipt : Receipt) : TxRecord :=
  { r with
    status := TxStatus.confirmed
    blockNumber := some receipt.blockNumber
    gasUsed := some receipt.gasUsed }

/-- The mutation of source lines 88 to 89. -/
def failRecord (r : TxRecord) (message : String) : TxRecord :=
  { r with status := TxStatus.failed, error := some message }

/-- Resolution of the race between the broadcast and the timeout timer: the
broadcast either succeeds with a receipt, or rejects with an error message,
or the timer wins and rejects with the fixed timeout message. -/
inductive BroadcastOutcome
  | success (receipt : Receipt)
  | failure (message : String)
  | timedOut
deriving DecidableEq, Repr

/-- Result of Promise.race at source lines 70 to 73. -/
def raceResult (outcome : BroadcastOutcome) : Except String Receipt :=
  match outcome with
  | BroadcastOutcome.success r => Except.ok r
  | BroadcastOutcome.failure m => Except.error m
  | BroadcastOutcome.timedOut => Except.error "Transaction timeout"

/-- Observable effects of one sendTransaction call, in program order:
computing the hash from the signed payload, each synchronous persistence of
the history (saveHistory), running the race with its timeout, and each
logAction call. -/
inductive TxEffect
  | sha3Computed (hash : String)
  | historySaved (history : List TxRecord)
  | raceRun (timeoutMs : Nat)
  | logged (action : String)
deriving DecidableEq, Repr

deriving instance DecidableEq for Except

/-- Final state, emitted effects (in order) and returned or thrown result of
one sendTransaction call. -/
structure SendResult where
  state : TxManagerState
  events : List TxEffect
  result : Except String Receipt
deriving DecidableEq, Repr

/-- Model of TransactionManager.sendTransaction (source lines 43 to 103).
The hash function, the current time and the race outcome are parameters;
everything else follows the source statement by statement.  The loser of the
race is abandoned: no continuation of it appears in the model, so it cannot
change recorded state. -/
def sendTransaction (sha3 : String → String) (now : Nat) (st : TxManagerState)
    (rawTransaction walletAddress : String) (options : TxOptions)
    (outcome : BroadcastOutcome) : SendResult :=
  let txHash := sha3 rawTransaction
  let txRecord := mkTxRecord txHash walletAddress now options
  let hist1 := appendCapped st.txHistory txRecord st.maxHistoryItems
  let timeoutMs := jsOrNat options.timeout 120000
  let ev0 := [TxEffect.sha3Computed txHash, TxEffect.historySaved hist1,
              TxEffect.raceRun timeoutMs]
  match raceResult outcome with
  | Except.ok receipt =>
      let hist2 := mutateHead hist1 (confirmRecord txRecord receipt)
      { state := { st with txHistory := hist2 }
        events := ev0 ++ [TxEffect.historySaved hist2,
                          TxEffect.logged "transaction_confirmed"]
        result := Except.ok receipt }
  | Except.error m =>
      let hist2 := mutateHead hist1 (failRecord txRecord m)
      let nonces2 :=
        if strIncludes m "nonce" || strIncludes m "underpriced"
        then eraseKey st.pendingNonces walletAddress
        else st.pendingNonces
      { state := { st with txHistory := hist2, pendingNonces := nonces2 }
        events := ev0 ++ [TxEffect.historySaved hist2,
                          TxEffect.logged "transaction_failed"]
        result := Except.error m }

/-- Status of the record for a given hash in a history snapshot; find
matches the source mutation target, which is the first (head) occurrence. -/
def statusOf (hist : List TxRecord) (h : String) : Option TxStatus :=
  (hist.find? (fun r => r.hash == h)).map (fun r => r.status)

/-- Statuses of the record for a given hash across the persisted snapshots
of one call, in order. -/
def statusTrace (res : SendResult) (h : String) : List TxStatus :=
  res.events.filterMap (fun e =>
    match e with
    | TxEffect.historySaved hist => statusOf hist h
    | _ => none)

/-- Terminal status a completed call assigns for each race outcome. -/
def terminalStatusOf (outcome : BroadcastOutcome) : TxStatus :=
  match outcome with
  | BroadcastOutcome.success _ => TxStatus.confirmed
  | _ => TxStatus.failed

/-! ## History query (transaction.js, getTransactionHistory) -/

/-- Model of the JavaScript toLowerCase call: characterwise lowering. -/
def jsToLowerCase (s : String) : String :=
  String.mk (s.data.map Char.toLower)

/-- Model of TransactionManager.getTransactionHistory (source lines 105 to
112).  The query is pure: it takes the history and returns a list without
modifying the store.  A null address and an empty address string are both
falsy, so both take the unfiltered branch. -/
def getTransactionHistory (txHistory : List TxRecord) (address : Option String)
    (limit : Nat) : List TxRecord :=
  match address with
  | some a =>
      if a = "" then txHistory.take limit
      else (txHistory.filter
        (fun tx => jsToLowerCase tx.fromAddr == jsToLowerCase a)).take limit
  | none => txHistory.take limit

/-! ## Retry orchestrator (sendMonadMintTx)

The repository carries two shapes of the retry wrapper.  The enhanced
variant (second index.js copy, with the fatal-error checks and exponential
backoff) and the simple variant (2ndindex.js and the first index.js copy,
which retries every error after a constant 3000 ms delay).  The recursion
guard retryCount < CONFIG.MAX_RETRY_COUNT is embedded through an explicit
fuel argument left = MAX_RETRY_COUNT - retryCount, which makes the recursion
structural; attempt k is 0-indexed and its outcome is a parameter. -/

/-- Attempts made, backoff delays waited (in ms, in order) and the final
result of one retry chain. -/
structure RetryResult where
  attempts : Nat
  delays : List Nat
  result : Except String Receipt
deriving DecidableEq, Repr

/-- Enhanced variant, catch block: a message containing Maximum supply or
not found in contract propagates at once; otherwise, while attempts remain,
wait 3000 * 2 ^ retryCount ms and recurse with retryCount + 1. -/
def sendMonadMintTxGoEnhanced (outcome : Nat → Except String Receipt) :
    Nat → Nat → RetryResult
  | left, k =>
      match outcome k with
      | Except.ok r => { attempts := 1, delays := [], result := Except.ok r }
      | Except.error e =>
          if strIncludes e "Maximum supply" then
            { attempts := 1, delays := [], result := Except.error e }
          else if strIncludes e "not found in contract" then
            { attempts := 1, delays := [], result := Except.error e }
          else
            match left with
            | 0 => { attempts := 1, delays := [], result := Except.error e }
            | left2 + 1 =>
                let rest := sendMonadMintTxGoEnhanced outcome left2 (k + 1)
                { attempts := rest.attempts + 1
                  delays := 3000 * 2 ^ k :: rest.delays
                  result := rest.result }

/-- Enhanced retry wrapper started at retryCount 0. -/
def sendMonadMintTxEnhanced (maxRetryCount : Nat)
    (outcome : Nat → Except String Receipt) : RetryResult :=
  sendMonadMintTxGoEnhanced outcome maxRetryCount 0

/-- Simple variant, catch block: every error is retried after a constant
3000 ms delay while attempts remain. -/
def sendMonadMintTxGoSimple (outcome : Nat → Except String Receipt) :
    Nat → Nat → RetryResult
  | left, k =>
      match outcome k with
      | Except.ok r => { attempts := 1, delays := [], result := Except.ok r }
      | Except.error e =>
          match left with
          | 0 => { attempts := 1, delays := [], result := Except.error e }
          | left2 + 1 =>
              let rest := sendMonadMintTxGoSimple outcome left2 (k + 1)
              { attempts := rest.attempts + 1
                delays := 3000 :: rest.delays
                result := rest.result }

/-- Simple retry wrapper started at retryCount 0. -/
def sendMonadMintTxSimple (maxRetryCount : Nat)
    (outcome : Nat → Except String Receipt) : RetryResult :=
  sendMonadMintTxGoSimple outcome maxRetryCount 0

/-! ## Batch coordinator (the /mint handler) -/

/-- Semantics of Promise.all over the settled per-chain results: all
fulfilled gives the list of receipts, otherwise the aggregate rejects with a
failed chain error (without any per-chain success count surviving). -/
def promiseAll : List (Except String Receipt) → Except String (List Receipt)
  | [] => Except.ok []
  | Except.ok r :: rest =>
      match promiseAll rest with
      | Except.ok rs => Except.ok (r :: rs)
      | Except.error e => Except.error e
  | Except.error e :: _ => Except.error e

/-- What the /mint handler reports: either the completion message carrying
successful and total counts (then branch) or the generic some-mints-failed
message of the catch branch, which carries no counts. -/
inductive BatchReport
  | complete (successful total : Nat)
  | someFailed
deriving DecidableEq, Repr

/-- Model of the /mint handler aggregation: Promise.all over the chains,
counting receipts with filter(r => r) on fulfillment (receipts are objects,
hence truthy), and the generic catch message on any rejection. -/
def mintBatchReport (chainResults : List (Except String Receipt)) : BatchReport :=
  match promiseAll chainResults with
  | Except.ok receipts =>
      BatchReport.complete (receipts.filter (fun _ => true)).length
        chainResults.length
  | Except.error _ => BatchReport.someFailed

/-- Modelled from the spec: the mintAll contract of the specification,
absent from the source as such — it returns the pair of the number of
chains that reached success and the total attempted, awaiting every chain. -/
def mintAllSpec (chainResults : List (Except String Receipt)) : Nat × Nat :=
  ((chainResults.filter (fun r =>
      match r with
      | Except.ok _ => true
      | Except.error _ => false)).length,
   chainResults.length)

theorem issuedNonces_nil (p : Option Nat) : issuedNonces p [] = [] := rfl

theorem issuedNonces_alloc (p : Option Nat) (c : Nat) (rest : List NonceOp) :
    issuedNonces p (NonceOp.alloc c :: rest) =
      (getNonce c p).1 :: issuedNonces (some (getNonce c p).2) rest := rfl

theorem issuedNonces_invalidate (p : Option Nat) (rest : List NonceOp) :
    issuedNonces p (NonceOp.invalidate :: rest) = issuedNonces none rest := rfl

theorem issuedNonces_release (p : Option Nat) (rest : List NonceOp) :
    issuedNonces p (NonceOp.releaseAfterSuccess :: rest) = issuedNonces p rest := rfl

/-- Helper: a run of N allocations, all observing on-chain count c, from a
stored entry s that is at least 1 (every value the code stores is nonce + 1,
hence at least 1) issues the contiguous ascending run starting at max c s. -/
theorem issuedNonces_replicate_alloc (c : Nat) :
    ∀ (N s : Nat), 1 ≤ s →
      issuedNonces (some s) (List.replicate N (NonceOp.alloc c)) =
        (List.range N).map (fun i => max c s + i) := by
  intro N
  induction N with
  | zero => intro s _; simp [issuedNonces]
  | succ N ih =>
      intro s hs
      rw [List.replicate_succ, issuedNonces_alloc]
      have hz : ¬ s = 0 := by omega
      have hfst : (getNonce c (some s)).1 = max c s := by
        simp [getNonce, hz]
      have hsnd : (getNonce c (some s)).2 = max c s + 1 := by
        simp [getNonce, hz]
      rw [hfst, hsnd, ih (max c s + 1) (by omega)]
      have hmax : max c (max c s + 1) = max c s + 1 := by omega
      rw [hmax, List.range_succ_eq_map, List.map_cons, List.map_map]
      have harg : ((fun i => max c s + i) ∘ Nat.succ) = fun i => max c s + 1 + i := by
        funext i
        simp [Function.comp]
        omega
      simp [harg]

/-- Claim C1: a set of N concurrent getNonce calls for one address, each
observing the same on-chain count c (external interference is out of scope),
serializes into N atomic allocations; the issued nonces are the contiguous
ascending run of length N starting at max c (lastIssued + 1) when an entry
lastIssued + 1 is stored, or at c when no entry is stored, and are in
particular pairwise distinct. -/
theorem getNonce_concurrent_run (c m N : Nat) :
    issuedNonces (some (m + 1)) (List.replicate N (NonceOp.alloc c)) =
      (List.range N).map (fun i => max c (m + 1) + i) ∧
    issuedNonces none (List.replicate N (NonceOp.alloc c)) =
      (List.range N).map (fun i => c + i) ∧
    (issuedNonces (some (m + 1)) (List.replicate N (NonceOp.alloc c))).Nodup := by
  have h1 := issuedNonces_replicate_alloc c N (m + 1) (by omega)
  have hnodup : ((List.range N).map (fun i => max c (m + 1) + i)).Nodup := by
    refine List.Nodup.map ?_ (List.nodup_range N)
    intro a b hab
    exact Nat.add_left_cancel hab
  refine ⟨h1, ?_, h1 ▸ hnodup⟩
  cases N with
  | zero => simp [issuedNonces]
  | succ N =>
      rw [List.replicate_succ, issuedNonces_alloc]
      have hfst : (getNonce c none).1 = c := by simp [getNonce]
      have hsnd : (getNonce c none).2 = c + 1 := by simp [getNonce]
      rw [hfst, hsnd, issuedNonces_replicate_alloc c N (c + 1) (by omega)]
      have hmax : max c (c + 1) = c + 1 := by omega
      rw [hmax, List.range_succ_eq_map, List.map_cons, List.map_map]
      have harg : ((fun i => c + i) ∘ Nat.succ) = fun i => c + 1 + i := by
        funext i
        simp [Function.comp]
        omega
      simp [harg]

/-- Helper: every nonce issued by an invalidation-free operation sequence
from a stored entry s with 1 ≤ s is at least s. -/
theorem issuedNonces_lower_bound :
    ∀ (ops : List NonceOp) (s : Nat), 1 ≤ s → NonceOp.invalidate ∉ ops →
      ∀ x ∈ issuedNonces (some s) ops, s ≤ x := by
  intro ops
  induction ops with
  | nil => intro s _ _ x hx; simp [issuedNonces] at hx
  | cons op rest ih =>
      intro s hs hno x hx
      have hno2 : NonceOp.invalidate ∉ rest := by
        intro h; exact hno (List.mem_cons_of_mem _ h)
      cases op with
      | alloc c =>
          rw [issuedNonces_alloc] at hx
          have hz : ¬ s = 0 := by omega
          have hfst : (getNonce c (some s)).1 = max c s := by simp [getNonce, hz]
          have hsnd : (getNonce c (some s)).2 = max c s + 1 := by simp [getNonce, hz]
          rw [hfst, hsnd] at hx
          rcases List.mem_cons.mp hx with h | h
          · omega
          · have := ih (max c s + 1) (by omega) hno2 x h
            omega
      | invalidate => exact absurd (List.mem_cons_self _ _) hno
      | releaseAfterSuccess =>
          rw [issuedNonces_release] at hx
          exact ih s hs hno2 x hx

/-- Helper: release operations do not change the pendingNonces entry, so
they can be peeled off the front of a sequence. -/
theorem issuedNonces_drop_releases :
    ∀ (pre : List NonceOp), (∀ o ∈ pre, o = NonceOp.releaseAfterSuccess) →
      ∀ (p : Option Nat) (rest : List NonceOp),
        issuedNonces p (pre ++ rest) = issuedNonces p rest := by
  intro pre
  induction pre with
  | nil => intro _ p rest; simp
  | cons o pre2 ih =>
      intro hall p rest
      have ho : o = NonceOp.releaseAfterSuccess := hall o (List.mem_cons_self _ _)
      subst ho
      rw [List.cons_append, issuedNonces_release]
      exact ih (fun o h => hall o (List.mem_cons_of_mem _ h)) p rest

/-- Counterexample to claim C2 as stated: with lastIssued 5 for an address
(pendingNonces entry 6), the error-invalidation path of sendTransaction
deletes the entry, and a following getNonce call observing an on-chain
count of 3 returns 3, which is not greater than 5. -/
theorem getNonce_reissue_after_invalidate :
    ¬ (∀ x ∈ issuedNonces (some (5 + 1)) [NonceOp.invalidate, NonceOp.alloc 3],
        5 < x) := by
  decide

/-- Claim C2, amended: the invariant holds for every operation sequence that
does not run the error-invalidation path.  From lastIssued n (stored entry
n + 1), every nonce issued by a sequence of allocations and (no-op) release
calls is greater than n, and the first allocation, observing on-chain count
c, returns exactly max c (n + 1).  After an invalidation the next allocation
instead re-derives from the on-chain count, which theorem
getNonce_reissue_after_invalidate shows may be at most n. -/
theorem getNonce_monotone_without_invalidate (n : Nat) (ops : List NonceOp)
    (hno : NonceOp.invalidate ∉ ops) :
    (∀ x ∈ issuedNonces (some (n + 1)) ops, n < x) ∧
    (∀ pre c rest, ops = pre ++ NonceOp.alloc c :: rest →
      (∀ o ∈ pre, o = NonceOp.releaseAfterSuccess) →
      (issuedNonces (some (n + 1)) ops).head? = some (max c (n + 1))) := by
  constructor
  · intro x hx
    have := issuedNonces_lower_bound ops (n + 1) (by omega) hno x hx
    omega
  · intro pre c rest hops hall
    subst hops
    rw [issuedNonces_drop_releases pre hall, issuedNonces_alloc]
    have hz : ¬ n + 1 = 0 := by omega
    simp [getNonce, hz]

/-- Witness for getNonce_monotone_without_invalidate at a concrete input:
lastIssued 5, a release no-op, then allocations observing counts 3 and 9. -/
theorem getNonce_monotone_without_invalidate_witness :
    (NonceOp.invalidate ∉
      [NonceOp.releaseAfterSuccess, NonceOp.alloc 3, NonceOp.alloc 9]) ∧
    5 < 9 ∧
    (issuedNonces (some (5 + 1))
      [NonceOp.releaseAfterSuccess, NonceOp.alloc 3, NonceOp.alloc 9]).head? =
      some (max 3 (5 + 1)) :=
  ⟨by decide,
   (getNonce_monotone_without_invalidate 5
      [NonceOp.releaseAfterSuccess, NonceOp.alloc 3, NonceOp.alloc 9]
      (by decide)).1 9 (by decide),
   (getNonce_monotone_without_invalidate 5
      [NonceOp.releaseAfterSuccess, NonceOp.alloc 3, NonceOp.alloc 9]
      (by decide)).2 [NonceOp.releaseAfterSuccess] 3 [NonceOp.alloc 9] rfl
      (by decide)⟩

/-- Helper: with a positive cap the freshly appended record is at the head
of the history (the conditional pop only ever removes the last element). -/
theorem appendCapped_head (hist : List TxRecord) (r : TxRecord) (cap : Nat)
    (h : 0 < cap) : ∃ t, appendCapped hist r cap = r :: t := by
  unfold appendCapped
  by_cases hlt : cap < (r :: hist).length
  · simp only [hlt, if_true]
    cases hist with
    | nil => simp at hlt; omega
    | cons a as => exact ⟨(a :: as).dropLast, rfl⟩
  · exact ⟨hist, by simp only [if_neg hlt]⟩

/-- Claim C3: every sendTransaction call performs its effects in order:
first the hash is computed from the signed payload, second the pending
record is appended and the history persisted, third the broadcast is raced
against the timer of the given timeout; then, on success, the record is
persisted as confirmed with block number and gas used and the receipt is
returned, while on failure or timeout the record is persisted as failed
with the error text and the error propagates.  The event list ends with the
terminal persist and its log entry, so the abandoned loser of the race
never changes recorded state. -/
theorem sendTransaction_effect_order (sha3 : String → String) (now : Nat)
    (st : TxManagerState) (raw wallet : String) (opts : TxOptions)
    (outcome : BroadcastOutcome) :
    (sendTransaction sha3 now st raw wallet opts outcome).events.take 3 =
      [TxEffect.sha3Computed (sha3 raw),
       TxEffect.historySaved (appendCapped st.txHistory
         (mkTxRecord (sha3 raw) wallet now opts) st.maxHistoryItems),
       TxEffect.raceRun (jsOrNat opts.timeout 120000)] ∧
    (∀ receipt, outcome = BroadcastOutcome.success receipt →
      (sendTransaction sha3 now st raw wallet opts outcome).events =
        [TxEffect.sha3Computed (sha3 raw),
         TxEffect.historySaved (appendCapped st.txHistory
           (mkTxRecord (sha3 raw) wallet now opts) st.maxHistoryItems),
         TxEffect.raceRun (jsOrNat opts.timeout 120000),
         TxEffect.historySaved (mutateHead
           (appendCapped st.txHistory
             (mkTxRecord (sha3 raw) wallet now opts) st.maxHistoryItems)
           (confirmRecord (mkTxRecord (sha3 raw) wallet now opts) receipt)),
         TxEffect.logged "transaction_confirmed"] ∧
      (sendTransaction sha3 now st raw wallet opts outcome).result =
        Except.ok receipt) ∧
    (∀ m, raceResult outcome = Except.error m →
      (sendTransaction sha3 now st raw wallet opts outcome).events =
        [TxEffect.sha3Computed (sha3 raw),
         TxEffect.historySaved (appendCapped st.txHistory
           (mkTxRecord (sha3 raw) wallet now opts) st.maxHistoryItems),
         TxEffect.raceRun (jsOrNat opts.timeout 120000),
         TxEffect.historySaved (mutateHead
           (appendCapped st.txHistory
             (mkTxRecord (sha3 raw) wallet now opts) st.maxHistoryItems)
           (failRecord (mkTxRecord (sha3 raw) wallet now opts) m)),
         TxEffect.logged "transaction_failed"] ∧
      (sendTransaction sha3 now st raw wallet opts outcome).result =
        Except.error m) := by
  refine ⟨?_, ?_, ?_⟩
  · cases outcome <;> simp [sendTransaction, raceResult]
  · intro receipt h
    subst h
    simp [sendTransaction, raceResult]
  · intro m h
    cases outcome with
    | success r => simp [raceResult] at h
    | failure m2 =>
        simp [raceResult] at h
        subst h
        simp [sendTransaction, raceResult]
    | timedOut =>
        simp [raceResult] at h
        subst h
        simp [sendTransaction, raceResult]

/-- Witness for sendTransaction_effect_order on the success path at a
concrete input. -/
theorem sendTransaction_effect_order_witness :
    (BroadcastOutcome.success (Receipt.mk "0xh" 3 21000) =
      BroadcastOutcome.success (Receipt.mk "0xh" 3 21000)) ∧
    ((sendTransaction (fun s => String.append "0x" s) 7
        (TxManagerState.mk [] [] 100) "rawtx" "0xW"
        (TxOptions.mk (some "0xC") (some "1000000000") (some "500000")
          (some 120000))
        (BroadcastOutcome.success (Receipt.mk "0xh" 3 21000))).events =
      [TxEffect.sha3Computed ((fun s => String.append "0x" s) "rawtx"),
       TxEffect.historySaved (appendCapped []
         (mkTxRecord ((fun s => String.append "0x" s) "rawtx") "0xW" 7
           (TxOptions.mk (some "0xC") (some "1000000000") (some "500000")
             (some 120000))) 100),
       TxEffect.raceRun (jsOrNat (some 120000) 120000),
       TxEffect.historySaved (mutateHead
         (appendCapped []
           (mkTxRecord ((fun s => String.append "0x" s) "rawtx") "0xW" 7
             (TxOptions.mk (some "0xC") (some "1000000000") (some "500000")
               (some 120000))) 100)
         (confirmRecord
           (mkTxRecord ((fun s => String.append "0x" s) "rawtx") "0xW" 7
             (TxOptions.mk (some "0xC") (some "1000000000") (some "500000")
               (some 120000)))
           (Receipt.mk "0xh" 3 21000))),
       TxEffect.logged "transaction_confirmed"] ∧
    (sendTransaction (fun s => String.append "0x" s) 7
        (TxManagerState.mk [] [] 100) "rawtx" "0xW"
        (TxOptions.mk (some "0xC") (some "1000000000") (some "500000")
          (some 120000))
        (BroadcastOutcome.success (Receipt.mk "0xh" 3 21000))).result =
      Except.ok (Receipt.mk "0xh" 3 21000)) :=
  ⟨rfl,
   (sendTransaction_effect_order (fun s => String.append "0x" s) 7
      (TxManagerState.mk [] [] 100) "rawtx" "0xW"
      (TxOptions.mk (some "0xC") (some "1000000000") (some "500000")
        (some 120000))
      (BroadcastOutcome.success (Receipt.mk "0xh" 3 21000))).2.1
      (Receipt.mk "0xh" 3 21000) rfl⟩

/-- Claim C4: across the persisted snapshots of one completed call, the
record for the computed hash is first pending and then takes exactly one
terminal status — confirmed on success, failed otherwise — and no snapshot
follows the terminal one. -/
theorem sendTransaction_single_terminal_transition (sha3 : String → String)
    (now : Nat) (st : TxManagerState) (raw wallet : String) (opts : TxOptions)
    (outcome : BroadcastOutcome) (hcap : 0 < st.maxHistoryItems) :
    statusTrace (sendTransaction sha3 now st raw wallet opts outcome)
        (sha3 raw) =
      [TxStatus.pending, terminalStatusOf outcome] := by
  obtain ⟨t, ht⟩ := appendCapped_head st.txHistory
    (mkTxRecord (sha3 raw) wallet now opts) st.maxHistoryItems hcap
  have hpend : statusOf (appendCapped st.txHistory
      (mkTxRecord (sha3 raw) wallet now opts) st.maxHistoryItems) (sha3 raw) =
      some TxStatus.pending := by
    rw [ht]
    simp [statusOf, List.find?, mkTxRecord]
  have hconf : ∀ receipt, statusOf (mutateHead
      (appendCapped st.txHistory (mkTxRecord (sha3 raw) wallet now opts)
        st.maxHistoryItems)
      (confirmRecord (mkTxRecord (sha3 raw) wallet now opts) receipt))
      (sha3 raw) = some TxStatus.confirmed := by
    intro receipt
    rw [ht]
    simp [mutateHead, statusOf, List.find?, confirmRecord, mkTxRecord]
  have hfail : ∀ m, statusOf (mutateHead
      (appendCapped st.txHistory (mkTxRecord (sha3 raw) wallet now opts)
        st.maxHistoryItems)
      (failRecord (mkTxRecord (sha3 raw) wallet now opts) m))
      (sha3 raw) = some TxStatus.failed := by
    intro m
    rw [ht]
    simp [mutateHead, statusOf, List.find?, failRecord, mkTxRecord]
  cases outcome <;>
    simp [sendTransaction, raceResult, statusTrace, hpend, hconf, hfail,
      terminalStatusOf]

/-- Witness for sendTransaction_single_terminal_transition at a concrete
failing call. -/
theorem sendTransaction_single_terminal_transition_witness :
    0 < (TxManagerState.mk [] [] 100).maxHistoryItems ∧
    statusTrace (sendTransaction (fun s => String.append "0x" s) 7
        (TxManagerState.mk [] [] 100) "rawtx" "0xW"
        (TxOptions.mk none none none none)
        (BroadcastOutcome.failure "boom"))
        ((fun s => String.append "0x" s) "rawtx") =
      [TxStatus.pending,
       terminalStatusOf (BroadcastOutcome.failure "boom")] :=
  ⟨by decide,
   sendTransaction_single_terminal_transition (fun s => String.append "0x" s)
     7 (TxManagerState.mk [] [] 100) "rawtx" "0xW"
     (TxOptions.mk none none none none) (BroadcastOutcome.failure "boom")
     (by decide)⟩

/-- Counterexample to claim C5 as stated: the 2ndindex.js retry wrapper,
with MAX_RETRY_COUNT 2 (3 attempts) and a timeout error on every attempt,
waits the constant 3000 ms before both retries, not 3000 then 6000 ms as
the claim requires of every sendMonadMintTx variant. -/
theorem sendMonadMintTx_constant_backoff :
    (sendMonadMintTxSimple 2
        (fun _ => Except.error "Transaction timeout")).delays = [3000, 3000] ∧
    ([3000, 3000] : List Nat) ≠ [3000, 6000] := by
  constructor
  · rfl
  · decide

/-- Claim C5, amended: with MAX_RETRY_COUNT 2 (3 attempts) and a timeout
error on every attempt, the enhanced index.js variant makes exactly 3
attempts, waits 3000 ms then 6000 ms (baseDelay times 2 ^ k after attempt
k), and raises the final timeout error; the 2ndindex.js variant also makes
exactly 3 attempts and raises the final timeout error but waits the
constant baseDelay of 3000 ms before each retry. -/
theorem sendMonadMintTx_retry_policy :
    (sendMonadMintTxEnhanced 2
        (fun _ => Except.error "Transaction timeout")).attempts = 3 ∧
    (sendMonadMintTxEnhanced 2
        (fun _ => Except.error "Transaction timeout")).delays = [3000, 6000] ∧
    (sendMonadMintTxEnhanced 2
        (fun _ => Except.error "Transaction timeout")).result =
      Except.error "Transaction timeout" ∧
    (sendMonadMintTxSimple 2
        (fun _ => Except.error "Transaction timeout")).attempts = 3 ∧
    (sendMonadMintTxSimple 2
        (fun _ => Except.error "Transaction timeout")).delays = [3000, 3000] ∧
    (sendMonadMintTxSimple 2
        (fun _ => Except.error "Transaction timeout")).result =
      Except.error "Transaction timeout" := by
  refine ⟨rfl, rfl, rfl, rfl, rfl, rfl⟩

/-- Counterexample to claim C6 as stated: in the simple retry wrapper (first
index.js copy and 2ndindex.js) a fatal supply-cap error on attempt 1 with
MAX_RETRY_COUNT 2 is retried like any other error, giving 3 attempts with
two backoff delays instead of the single immediate propagation the claim
requires of every submission chain. -/
theorem sendMonadMintTx_fatal_retried :
    (sendMonadMintTxSimple 2
        (fun _ => Except.error "Maximum supply reached")).attempts = 3 ∧
    (sendMonadMintTxSimple 2
        (fun _ => Except.error "Maximum supply reached")).delays =
      [3000, 3000] ∧
    (3 : Nat) ≠ 1 := by
  refine ⟨rfl, rfl, by decide⟩

/-- Claim C6, amended: in the enhanced index.js variant, an attempt that
fails with a fatal error — message containing Maximum supply or not found
in contract — short-circuits: exactly one attempt, no backoff delay, and
the error propagates immediately, for any remaining retry budget. -/
theorem sendMonadMintTx_fatal_short_circuit (maxRetryCount : Nat)
    (outcome : Nat → Except String Receipt) (e : String)
    (h0 : outcome 0 = Except.error e)
    (hfatal : strIncludes e "Maximum supply" = true ∨
      strIncludes e "not found in contract" = true) :
    sendMonadMintTxEnhanced maxRetryCount outcome =
      { attempts := 1, delays := [], result := Except.error e } := by
  unfold sendMonadMintTxEnhanced
  unfold sendMonadMintTxGoEnhanced
  rw [h0]
  rcases hfatal with h | h
  · simp [h]
  · by_cases h1 : strIncludes e "Maximum supply" = true
    · simp [h1]
    · simp [h1, h]

/-- Witness for sendMonadMintTx_fatal_short_circuit at a concrete fatal
error on attempt 1 of 3. -/
theorem sendMonadMintTx_fatal_short_circuit_witness :
    ((fun _ => Except.error "Execution reverted: Maximum supply reached" :
        Nat → Except String Receipt) 0 =
      Except.error "Execution reverted: Maximum supply reached") ∧
    (strIncludes "Execution reverted: Maximum supply reached"
        "Maximum supply" = true ∨
      strIncludes "Execution reverted: Maximum supply reached"
        "not found in contract" = true) ∧
    sendMonadMintTxEnhanced 2
        (fun _ => Except.error "Execution reverted: Maximum supply reached") =
      { attempts := 1, delays := []
        result := Except.error "Execution reverted: Maximum supply reached" } :=
  ⟨rfl, Or.inl (by decide),
   sendMonadMintTx_fatal_short_circuit 2
     (fun _ => Except.error "Execution reverted: Maximum supply reached")
     "Execution reverted: Maximum supply reached" rfl (Or.inl (by decide))⟩

/-- Claim C7, evaluated at the failing input: a batch of two wallets where
the first chain succeeds and the second terminally fails.  The handler
built on Promise.all lands in the catch branch and reports only the generic
some-mints-failed message, with no success count, while the specified
mintAll contract would report successCount 1 out of total 2.  The code
therefore cannot distinguish partial success from total failure, contrary
to the claim and to the specification scenario. -/
theorem mintBatchReport_partial_failure_not_counted :
    mintBatchReport [Except.ok (Receipt.mk "0xh" 3 21000),
        Except.error "network error"] = BatchReport.someFailed ∧
    mintAllSpec [Except.ok (Receipt.mk "0xh" 3 21000),
        Except.error "network error"] = (1, 2) ∧
    BatchReport.someFailed ≠ BatchReport.complete 1 2 := by
  refine ⟨rfl, rfl, by decide⟩

/-- Claim C8: on a failed sendTransaction whose error message contains
nonce or underpriced, the pendingNonces entry of the sending wallet is
deleted in the same call, before the error is rethrown; on every other
completed call — other failures, the timeout message, and successes — the
map is left unchanged. -/
theorem sendTransaction_nonce_invalidation (sha3 : String → String)
    (now : Nat) (st : TxManagerState) (raw wallet : String) (opts : TxOptions)
    (outcome : BroadcastOutcome) :
    (∀ m, outcome = BroadcastOutcome.failure m →
      (strIncludes m "nonce" || strIncludes m "underpriced") = true →
      (sendTransaction sha3 now st raw wallet opts outcome).state.pendingNonces =
        eraseKey st.pendingNonces wallet ∧
      (sendTransaction sha3 now st raw wallet opts outcome).result =
        Except.error m) ∧
    (∀ m, outcome = BroadcastOutcome.failure m →
      (strIncludes m "nonce" || strIncludes m "underpriced") = false →
      (sendTransaction sha3 now st raw wallet opts outcome).state.pendingNonces =
        st.pendingNonces) ∧
    (outcome = BroadcastOutcome.timedOut →
      (sendTransaction sha3 now st raw wallet opts outcome).state.pendingNonces =
        st.pendingNonces) ∧
    (∀ receipt, outcome = BroadcastOutcome.success receipt →
      (sendTransaction sha3 now st raw wallet opts outcome).state.pendingNonces =
        st.pendingNonces) := by
  refine ⟨?_, ?_, ?_, ?_⟩
  · intro m hm hsub
    subst hm
    simp [sendTransaction, raceResult, hsub]
  · intro m hm hsub
    subst hm
    simp [sendTransaction, raceResult, hsub]
  · intro hm
    subst hm
    have hsub : (strIncludes "Transaction timeout" "nonce" ||
        strIncludes "Transaction timeout" "underpriced") = false := by decide
    simp [sendTransaction, raceResult, hsub]
  · intro receipt hm
    subst hm
    simp [sendTransaction, raceResult]

/-- Witness for sendTransaction_nonce_invalidation at a broadcast rejected
with a nonce-too-low message. -/
theorem sendTransaction_nonce_invalidation_witness :
    (BroadcastOutcome.failure "nonce too low" =
      BroadcastOutcome.failure "nonce too low") ∧
    (strIncludes "nonce too low" "nonce" ||
      strIncludes "nonce too low" "underpriced") = true ∧
    ((sendTransaction (fun s => String.append "0x" s) 7
        (TxManagerState.mk [("0xW", 6)] [] 100) "rawtx" "0xW"
        (TxOptions.mk none none none none)
        (BroadcastOutcome.failure "nonce too low")).state.pendingNonces =
      eraseKey [("0xW", 6)] "0xW" ∧
    (sendTransaction (fun s => String.append "0x" s) 7
        (TxManagerState.mk [("0xW", 6)] [] 100) "rawtx" "0xW"
        (TxOptions.mk none none none none)
        (BroadcastOutcome.failure "nonce too low")).result =
      Except.error "nonce too low") :=
  ⟨rfl, by decide,
   (sendTransaction_nonce_invalidation (fun s => String.append "0x" s) 7
      (TxManagerState.mk [("0xW", 6)] [] 100) "rawtx" "0xW"
      (TxOptions.mk none none none none)
      (BroadcastOutcome.failure "nonce too low")).1 "nonce too low" rfl
      (by decide)⟩

/-- Claim C9: appending to a history of at most 100 records places the new
record first; while under the cap nothing is evicted, and at the cap
exactly the oldest (last) record is dropped, leaving exactly 100 records
with the most-recent-first order of the survivors preserved. -/
theorem appendCapped_bounded_ring (hist : List TxRecord) (r : TxRecord)
    (hle : hist.length ≤ 100) :
    (appendCapped hist r 100).head? = some r ∧
    (hist.length < 100 → appendCapped hist r 100 = r :: hist) ∧
    (hist.length = 100 → appendCapped hist r 100 = r :: hist.dropLast ∧
      (appendCapped hist r 100).length = 100) := by
  refine ⟨?_, ?_, ?_⟩
  · obtain ⟨t, ht⟩ := appendCapped_head hist r 100 (by omega)
    rw [ht]
    rfl
  · intro hlt
    unfold appendCapped
    have hnot : ¬ 100 < (r :: hist).length := by simp; omega
    simp only [if_neg hnot]
  · intro heq
    have hlt : 100 < (r :: hist).length := by simp; omega
    constructor
    · unfold appendCapped
      simp only [if_pos hlt]
      cases hist with
      | nil => simp at heq
      | cons a as => rfl
    · unfold appendCapped
      simp only [if_pos hlt]
      rw [List.length_dropLast]
      simp [heq]

/-- Witness for appendCapped_bounded_ring at a full history of 100
records. -/
theorem appendCapped_bounded_ring_witness :
    (List.replicate 100
        (TxRecord.mk "0xold" "0xA" "0xC" 1 TxStatus.confirmed "g" "l"
          none none none)).length ≤ 100 ∧
    (appendCapped
        (List.replicate 100
          (TxRecord.mk "0xold" "0xA" "0xC" 1 TxStatus.confirmed "g" "l"
            none none none))
        (TxRecord.mk "0xnew" "0xB" "0xC" 2 TxStatus.pending "g" "l"
          none none none) 100).head? =
      some (TxRecord.mk "0xnew" "0xB" "0xC" 2 TxStatus.pending "g" "l"
        none none none) :=
  ⟨by simp,
   (appendCapped_bounded_ring
      (List.replicate 100
        (TxRecord.mk "0xold" "0xA" "0xC" 1 TxStatus.confirmed "g" "l"
          none none none))
      (TxRecord.mk "0xnew" "0xB" "0xC" 2 TxStatus.pending "g" "l"
        none none none)
      (by simp)).1⟩

/-- Helper: characterwise lowering gives the empty string only on the empty
string. -/
theorem jsToLowerCase_eq_empty_iff (s : String) :
    jsToLowerCase s = "" ↔ s = "" := by
  cases s with
  | mk data =>
      cases data with
      | nil => simp [jsToLowerCase]
      | cons c cs =>
          constructor
          · intro h
            have := congrArg String.data h
            simp [jsToLowerCase] at this
          · intro h
            have := congrArg String.data h
            simp at this

/-- Claim C10: the history query filters by the from field compared
case-insensitively, so two address arguments that lower to the same string
return the same sequence for every history and limit; the query itself is a
pure function of the store. -/
theorem getTransactionHistory_case_insensitive (hist : List TxRecord)
    (limit : Nat) (a b : String)
    (h : jsToLowerCase a = jsToLowerCase b) :
    getTransactionHistory hist (some a) limit =
      getTransactionHistory hist (some b) limit := by
  by_cases ha : a = ""
  · have hb : b = "" := by
      rw [← jsToLowerCase_eq_empty_iff, ← h, ha]
      simp [jsToLowerCase]
    simp [getTransactionHistory, ha, hb]
  · have hb : ¬ b = "" := by
      intro hb
      apply ha
      rw [← jsToLowerCase_eq_empty_iff, h, hb]
      simp [jsToLowerCase]
    simp only [getTransactionHistory, if_neg ha, if_neg hb, h]

/-- Witness for getTransactionHistory_case_insensitive at two addresses
differing only in letter case. -/
theorem getTransactionHistory_case_insensitive_witness :
    jsToLowerCase "0xAbC9" = jsToLowerCase "0xaBc9" ∧
    getTransactionHistory
        [TxRecord.mk "0xh" "0xabc9" "0xC" 1 TxStatus.confirmed "g" "l"
          none none none]
        (some "0xAbC9") 10 =
      getTransactionHistory
        [TxRecord.mk "0xh" "0xabc9" "0xC" 1 TxStatus.confirmed "g" "l"
          none none none]
        (some "0xaBc9") 10 :=
  ⟨by decide,
   getTransactionHistory_case_insensitive
     [TxRecord.mk "0xh" "0xabc9" "0xC" 1 TxStatus.confirmed "g" "l"
       none none none]
     10 "0xAbC9" "0xaBc9" (by decide)⟩

end MONv2
